import Mathlib

/-!
Verification development for the custom-structure type system of an OPC UA
stack (file `asyncua/common/structures.py`).  The Python source is shallowly
embedded: classes become structures, methods become pure functions, in-place
mutation is made explicit by returning the updated value, and the dynamic
`exec` of generated code is abstracted by an execution parameter.  The helper
functions `clean_name` and `get_default_value` are imported by the source from
a sibling module that is not part of the analysed code; they are passed as
abstract function parameters `cn` and `g` throughout.
-/

set_option autoImplicit false

namespace UaStructs

/-- Boolean test that `pre` is a prefix of `s`, on the character lists.
Embeds the Python `str.startswith` used by the source. -/
def strStartsWith (s pre : String) : Bool :=
  pre.data.isPrefixOf s.data

/-- Boolean test that `suf` is a suffix of `s`, on the character lists.
Embeds the Python `str.endswith` used by the source. -/
def strEndsWith (s suf : String) : Bool :=
  suf.data.isSuffixOf s.data

/-- Split a character list at every occurrence of `c`.  Embeds the Python
`str.split(sep)` for a one-character separator: the result always has at
least one part, and has at least two parts when `c` occurs. -/
def splitOnChar (c : Char) : List Char → List (List Char)
  | [] => [[]]
  | x :: xs =>
    match splitOnChar c xs with
    | [] => [[]]
    | h :: t => if x = c then [] :: h :: t else (x :: h) :: t

/-- Remove every space character from a string.  Embeds the Python
`name.replace(" ", "")` of `EnumeratedValue.__init__`, which deletes every
occurrence of the one-character pattern. -/
def removeSpaces (s : String) : String :=
  ⟨s.data.filter (fun c => c != ' ')⟩

/-- Name sanitisation performed by `EnumeratedValue.__init__` (lines 57 to 59
of the source): a name equal to `"None"` becomes `"None_"`, then spaces are
removed. -/
def enumValueName (name : String) : String :=
  removeSpaces (if name = "None" then "None_" else name)

/-- One `(Name, Value)` member of an enumerated type; `EnumeratedValue` in the
source.  The value type is a parameter because the XML path stores the raw
attribute string while the server-introspection path stores the ordinal. -/
structure EnumeratedValue (α : Type) where
  Name : String
  Value : α
deriving DecidableEq

/-- Embeds `EnumeratedValue.__init__`: the stored `Name` is the sanitised
name, the stored `Value` is taken as given. -/
def EnumeratedValue.make {α : Type} (name : String) (value : α) : EnumeratedValue α :=
  ⟨enumValueName name, value⟩

/-- The `EnumType` class of the source: a name (already cleaned by the
constructor), an ordered member list and an optional type identifier. -/
structure EnumType (α : Type) where
  name : String
  fields : List (EnumeratedValue α)
  typeid : Option String
deriving DecidableEq

/-- The `Field` class of the source, with every attribute the source ever
assigns.  Python initialises `uatype` and `value` to `None`; here every field
is built with its final attribute values, and `value = none` models the Python
`None` default. -/
structure Field where
  name : String
  uatype : String
  value : Option String
  array : Bool
  is_optional : Bool
deriving DecidableEq

/-- The `Struct` class of the source. -/
structure Struct where
  name : String
  fields : List Field
  typeid : Option String
  option_counter : Nat
deriving DecidableEq

/-- The single-quote character, spelled by code point, used by the emitted
type annotations. -/
def quote1 : String :=
  String.singleton (Char.ofNat 39)

/-- The synthetic field prepended by `Struct.get_code` when the struct has
optional fields: `Field("Encoding")` with `uatype = "UInt32"` and all other
attributes left at their defaults. -/
def encodingField : Field :=
  { name := "Encoding", uatype := "UInt32", value := none,
    array := false, is_optional := false }

/-- The type-annotation text computed for one field by `Struct.get_code`
(lines 98 to 102): quote the type as a forward reference, wrap arrays in
`List[...]`, then compare against the literal `"List[ua.Char]"` (which has no
inner quotes) to special-case character arrays to `"String"`. -/
def field_uatype (f : Field) : String :=
  let u := quote1 ++ "ua." ++ f.uatype ++ quote1
  let u := if f.array then "List[" ++ u ++ "]" else u
  if u = "List[ua.Char]" then "String" else u

/-- The emitted source line for one field (lines 98 to 109 of the source):
optional fields get an `Optional` annotation with default `None`; otherwise
the stored default value is emitted, wrapped in a default factory when it
starts with `"ua."`.  A stored value of `none` renders as the text `None`, as
the Python f-string would. -/
def field_line (f : Field) : String :=
  let u := field_uatype f
  if f.is_optional then
    "    " ++ f.name ++ ": Optional[" ++ u ++ "] = None\n"
  else
    let v :=
      match f.value with
      | none => "None"
      | some v0 =>
        if strStartsWith v0 "ua." then
          "field(default_factory=lambda: " ++ v0 ++ ")"
        else v0
    "    " ++ f.name ++ ":" ++ u ++ " = " ++ v ++ "\n"

/-- The field list `Struct.get_code` stores back into `self.fields` before
emitting: when the optional-field counter is positive the synthetic Encoding
field is prepended (lines 87 to 90 of the source). -/
def newFields (s : Struct) : List Field :=
  if 0 < s.option_counter then encodingField :: s.fields else s.fields

/-- The sequence of fields actually emitted by `Struct.get_code`: the stored
field list with every field named `"SwitchField"` skipped (line 92). -/
def emittedFields (s : Struct) : List Field :=
  (newFields s).filter (fun f => f.name != "SwitchField")

/-- Embeds `Struct.get_code`.  The first component is the list of emitted
per-field lines (the fixed class header is not modelled); the second is the
struct after the call, making the in-place mutation of `self.fields` explicit. -/
def Struct.get_code (s : Struct) : List String × Struct :=
  ((emittedFields s).map field_line, { s with fields := newFields s })

/-- Embeds `EnumType.get_code`: one emitted member line per field, in order,
with the member name cleaned again by `clean_name` (passed as `cn`) and the
value rendered verbatim.  The fixed class header is not modelled. -/
def EnumType.get_code (cn : String → String) (e : EnumType String) : List String :=
  e.fields.map (fun v => "    " ++ cn v.Name ++ " = " ++ v.Value ++ "\n")

/-- A parsed XML element: tag, attribute list, children.  This is the shape of
the ElementTree nodes traversed by `StructGenerator._make_model`. -/
inductive XmlElem where
  | mk (tag : String) (attrs : List (String × String)) (children : List XmlElem)

/-- Tag of an XML element. -/
def XmlElem.tag : XmlElem → String
  | .mk t _ _ => t

/-- Attribute list of an XML element. -/
def XmlElem.attrs : XmlElem → List (String × String)
  | .mk _ a _ => a

/-- Children of an XML element. -/
def XmlElem.children : XmlElem → List XmlElem
  | .mk _ _ c => c

/-- Attribute lookup with an empty-string fallback.  The source reads
`xmlfield.get("SwitchField", "")` with this exact default; for `Name`,
`Value` and `TypeName` it uses `get` with a `None` default but assumes the
attribute is present (a missing one would raise), so the total fallback is
unreachable on the inputs the source accepts. -/
def XmlElem.attrD (e : XmlElem) (k : String) : String :=
  ((e.attrs).lookup k).getD ""

/-- Embeds `StructGenerator._is_array_field` (lines 140 to 149): a field name
is an array-length marker when it starts with `NoOf`, starts with `__` and
ends with `Length` (Codesys), or starts with `#` (BR). -/
def is_array_field (name : String) : Bool :=
  if strStartsWith name "NoOf" then true
  else if strStartsWith name "__" && strEndsWith name "Length" then true
  else if strStartsWith name "#" then true
  else false

/-- Namespace stripping of a declared type name (lines 178 to 179 of the
source): when the name contains a colon, keep the part after the first colon,
as Python `_type.split(":")[1]` does. -/
def split_type_name (t : String) : String :=
  if t.data.contains ':' then String.mk ((splitOnChar ':' t.data).getD 1 []) else t

/-- The field built for one materialised XML field declaration by
`_make_model` (lines 183 to 193): cleaned name and type, optional flag from a
non-empty `SwitchField` attribute, default value from `get_default_value`
(the abstract `g`), overridden by the empty-list factory when the pending
array flag is set. -/
def mk_struct_field (cn : String → String) (g : String → List (String × String) → String)
    (enums : List (String × String)) (x : XmlElem) (array : Bool) : Field :=
  let t := split_type_name (x.attrD "TypeName")
  { name := cn (x.attrD "Name"),
    uatype := cn t,
    value := if array then some "field(default_factory=list)" else some (g (cn t) enums),
    array := array,
    is_optional := x.attrD "SwitchField" != "" }

/-- The field-materialisation loop of `_make_model` (lines 170 to 194), made
explicit as a recursion over the XML children of one structured type, with
the pending array-mode flag as state.  Returns the materialised fields in
order together with the final `option_counter`.  Children whose tag does not
end in `Field` leave the state untouched; a marker name sets the flag and is
discarded; a `Bit` type is discarded with the flag untouched; otherwise the
field is materialised and the flag is cleared. -/
def make_struct_fields (cn : String → String) (g : String → List (String × String) → String)
    (enums : List (String × String)) : List XmlElem → Bool → List Field × Nat
  | [], _ => ([], 0)
  | x :: rest, array =>
    if strEndsWith x.tag "Field" then
      if is_array_field (x.attrD "Name") then
        make_struct_fields cn g enums rest true
      else if split_type_name (x.attrD "TypeName") = "Bit" then
        make_struct_fields cn g enums rest array
      else
        let f := mk_struct_field cn g enums x array
        let r := make_struct_fields cn g enums rest false
        (f :: r.1, (if x.attrD "SwitchField" != "" then 1 else 0) + r.2)
    else
      make_struct_fields cn g enums rest array

/-- The struct built by `_make_model` for one `StructuredType` element. -/
def make_struct (cn : String → String) (g : String → List (String × String) → String)
    (enums : List (String × String)) (child : XmlElem) : Struct :=
  let r := make_struct_fields cn g enums child.children false
  { name := cn (child.attrD "Name"), fields := r.1, typeid := none, option_counter := r.2 }

/-- One entry of the type model built by `_make_model`: an enumerated type or
a struct. -/
inductive SchemaElem where
  | enum (e : EnumType String)
  | struct (s : Struct)
deriving DecidableEq

/-- The code emitted for one model entry inside `_generate_python_class`,
which calls `element.get_code()` on each entry. -/
def SchemaElem.get_code (cn : String → String) : SchemaElem → List String
  | .enum e => EnumType.get_code cn e
  | .struct s => (Struct.get_code s).1

/-- The inner loop of the first pass of `_make_model` (lines 156 to 162):
collect the `EnumeratedValue` children of one enumerated type, and on each
one overwrite the side map entry for the enclosing enum name with that value
(the source executes `enums[child.get("Name")] = value` inside the loop).
The side map is an association list where the most recent binding is in
front, so lookups see the latest write, matching dict assignment. -/
def enum_values_pass (enumName : String) :
    List XmlElem → List (String × String) → List (EnumeratedValue String) × List (String × String)
  | [], enums => ([], enums)
  | x :: rest, enums =>
    if strEndsWith x.tag "EnumeratedValue" then
      let v := x.attrD "Value"
      let r := enum_values_pass enumName rest ((enumName, v) :: enums)
      (EnumeratedValue.make (x.attrD "Name") v :: r.1, r.2)
    else
      enum_values_pass enumName rest enums

/-- The first pass of `_make_model` (lines 153 to 163): every child whose tag
ends in `EnumeratedType` becomes an `EnumType` model entry, threading the
side map of enum values. -/
def enum_pass (cn : String → String) :
    List XmlElem → List (String × String) → List SchemaElem × List (String × String)
  | [], enums => ([], enums)
  | child :: rest, enums =>
    if strEndsWith child.tag "EnumeratedType" then
      let r := enum_values_pass (child.attrD "Name") child.children enums
      let e : EnumType String := { name := cn (child.attrD "Name"), fields := r.1, typeid := none }
      let r2 := enum_pass cn rest r.2
      (SchemaElem.enum e :: r2.1, r2.2)
    else
      enum_pass cn rest enums

/-- The second pass of `_make_model` (lines 165 to 195): every child whose
tag ends in `StructuredType` becomes a `Struct` model entry, using the side
map produced by the completed first pass. -/
def struct_pass (cn : String → String) (g : String → List (String × String) → String)
    (enums : List (String × String)) : List XmlElem → List SchemaElem
  | [] => []
  | child :: rest =>
    if strEndsWith child.tag "StructuredType" then
      SchemaElem.struct (make_struct cn g enums child) :: struct_pass cn g enums rest
    else
      struct_pass cn g enums rest

/-- Embeds `StructGenerator._make_model` for a fresh generator (whose model
list starts empty, as after `make_model_from_string`): the first pass over
the root children appends all enumerated types, the second pass appends all
structured types. -/
def make_model (cn : String → String) (g : String → List (String × String) → String)
    (root : XmlElem) : List SchemaElem :=
  let r := enum_pass cn root.children []
  r.1 ++ struct_pass cn g r.2 root.children

/-- A value bound in the target namespace: either a pre-existing library
binding added by `_generate_python_class`, or a type freshly created by
executing generated code. -/
inductive PyVal where
  | builtin (n : String)
  | generated (code : List String)
deriving DecidableEq

/-- The target namespace of `_generate_python_class`: name to value bindings,
newest first, so lookups see the latest write, matching dict assignment. -/
abbrev Env := List (String × PyVal)

/-- Membership test on the environment, the Python `k in env`. -/
def envHas (env : Env) (k : String) : Bool :=
  (env.lookup k).isSome

/-- The library-binding preamble of `_generate_python_class` (lines 307 to
323), including its quirks: the `datetime` guard adds both `datetime` and
`timezone`, and the `enum` guard adds the binding under the key `IntEnum`. -/
def add_required_libs (env : Env) : Env :=
  let env := if envHas env "ua" then env else ("ua", PyVal.builtin "ua") :: env
  let env := if envHas env "datetime" then env else
    ("timezone", PyVal.builtin "timezone") :: ("datetime", PyVal.builtin "datetime") :: env
  let env := if envHas env "uuid" then env else ("uuid", PyVal.builtin "uuid") :: env
  let env := if envHas env "enum" then env else ("IntEnum", PyVal.builtin "IntEnum") :: env
  let env := if envHas env "dataclass" then env else
    ("dataclass", PyVal.builtin "dataclass") :: env
  let env := if envHas env "field" then env else ("field", PyVal.builtin "field") :: env
  let env := if envHas env "List" then env else ("List", PyVal.builtin "List") :: env
  if envHas env "Optional" then env else ("Optional", PyVal.builtin "Optional") :: env

/-- The generation loop of `_generate_python_class` (lines 325 to 331): for
each model entry in order, emit its code and execute it in the environment.
Execution is the abstract parameter `execC`: `some env2` is a successful
`exec` that returns the updated environment, `none` is a raised exception.
On failure the source logs the offending code and re-raises; since `env` is
mutated in place, the caller observes every binding committed before the
failure, which the error value makes explicit by carrying the offending code
together with the environment reached so far. -/
def exec_loop (cn : String → String) (execC : List String → Env → Option Env) :
    List SchemaElem → Env → Except (List String × Env) Env
  | [], env => .ok env
  | e :: rest, env =>
    let code := SchemaElem.get_code cn e
    match execC code env with
    | none => .error (code, env)
    | some env2 => exec_loop cn execC rest env2

/-- Embeds `_generate_python_class` with a caller-supplied environment: add
the required library bindings, then run the generation loop. -/
def generate_python_class (cn : String → String) (execC : List String → Env → Option Env)
    (model : List SchemaElem) (env : Env) : Except (List String × Env) Env :=
  exec_loop cn execC model (add_required_libs env)

/-- One child identity descriptor processed by the registration loop of
`load_type_definitions` (lines 275 to 288): the browse name and the node
identifiers of its inverse HasDescription references. -/
structure ChildDesc where
  browseName : String
  refs : List String
deriving DecidableEq

/-- The registration loop of `load_type_definitions` (lines 275 to 288):
descriptors without references are ignored; a descriptor whose cleaned
browse name is missing from the freshly built type map is logged and
skipped; otherwise the type is registered against the first reference
identifier.  Returns the performed registrations in order, each with the
name, the node identifier and the class looked up in the type map. -/
def register_descriptors (cn : String → String) (sdict : List (String × String)) :
    List ChildDesc → List (String × String × String)
  | [] => []
  | d :: rest =>
    match d.refs with
    | [] => register_descriptors cn sdict rest
    | nodeid :: _ =>
      let name := cn d.browseName
      match sdict.lookup name with
      | none => register_descriptors cn sdict rest
      | some cls => (name, nodeid, cls) :: register_descriptors cn sdict rest

/-- Indexing of a list from a starting ordinal, the Python `enumerate`. -/
def pyEnumerate {α : Type} : Nat → List α → List (Nat × α)
  | _, [] => []
  | i, x :: xs => (i, x) :: pyEnumerate (i + 1) xs

/-- Embeds `_get_enum_strings` (lines 368 to 372): from the ordered list of
display texts read from the server, build an `EnumType` whose members pair
each text with its ordinal index, via the `EnumeratedValue` constructor. -/
def get_enum_strings (cn : String → String) (name : String) (val : List String) :
    EnumType Nat :=
  { name := cn name,
    fields := (pyEnumerate 0 val).map (fun p => EnumeratedValue.make p.2 p.1),
    typeid := none }

/-- A field with element type `Char` and the array flag set, the input of the
character-array special case of `Struct.get_code`. -/
def charArrayField : Field :=
  ⟨"Data", "Char", some "field(default_factory=list)", true, false⟩

/-- A concrete struct with one optional field, as `_make_model` would build
it for a structured type with a single switch-marked field. -/
def optStruct : Struct :=
  ⟨"OptRec", [⟨"Val", "Int32", some "0", false, true⟩], none, 1⟩

/-- A concrete struct with two optional fields and no field named
`Encoding`, used to exercise repeated emission. -/
def twoOptStruct : Struct :=
  ⟨"TwoOpt", [⟨"A", "Int32", some "0", false, true⟩, ⟨"B", "Int32", some "0", false, true⟩],
    none, 2⟩

/-- A concrete enumerated-type XML element with one member. -/
def colorEnumXml : XmlElem :=
  .mk "EnumeratedType" [("Name", "Color")] [.mk "EnumeratedValue" [("Name", "Red"), ("Value", "0")] []]

/-- A concrete structured-type XML element with one field. -/
def shapeStructXml : XmlElem :=
  .mk "StructuredType" [("Name", "Shape")] [.mk "Field" [("Name", "ColorField"), ("TypeName", "Color")] []]

/-- A concrete schema root holding one enumerated type and one structured
type. -/
def demoRoot : XmlElem :=
  .mk "TypeDictionary" [] [colorEnumXml, shapeStructXml]

/-- A trivial concrete stand-in for the `get_default_value` helper. -/
def g0 : String → List (String × String) → String :=
  fun _ _ => "0"

/-- A concrete array-length marker field declaration. -/
def markerElem : XmlElem :=
  .mk "Field" [("Name", "NoOfPoints"), ("TypeName", "Int32")] []

/-- A concrete array payload field declaration. -/
def pointsElem : XmlElem :=
  .mk "Field" [("Name", "Points"), ("TypeName", "Double")] []

/-- A concrete padding field declaration of type `Bit`. -/
def fillerElem : XmlElem :=
  .mk "Field" [("Name", "Filler"), ("TypeName", "Bit")] []

/-- A concrete ordinary field declaration. -/
def valueElem : XmlElem :=
  .mk "Field" [("Name", "Value"), ("TypeName", "Int32")] []

/-- A concrete model entry whose generated code executes successfully. -/
def elemA : SchemaElem :=
  .enum ⟨"A", [⟨"X", "0"⟩], none⟩

/-- A concrete model entry standing for a struct whose generated code raises
when executed. -/
def elemB : SchemaElem :=
  .struct ⟨"B", [⟨"V", "Int32", some "0", false, false⟩], none, 0⟩

/-- A concrete execution oracle standing for the Python `exec` in a scenario
where the code generated for `elemB` raises (for instance because its default
expression is invalid in the target namespace) while the code generated for
`elemA` succeeds and binds the class name `A`. -/
def execFail1 : List String → Env → Option Env :=
  fun code env =>
    if code == SchemaElem.get_code id elemB then none
    else some (("A", PyVal.generated code) :: env)

/-- The environment after successfully executing `elemA` on an initially
empty caller environment. -/
def c1env1 : Env :=
  ("A", PyVal.generated (SchemaElem.get_code id elemA)) :: add_required_libs []

/-- The environment carried by the error of the failing load of
`[elemA, elemB]`, when there is one. -/
def c1errEnv : Option Env :=
  match generate_python_class id execFail1 [elemA, elemB] [] with
  | .error p => some p.2
  | .ok _ => none

/-- Lookup of the name `A` in the environment carried by the error of the
failing load, when there is one. -/
def c1errLookupA : Option PyVal :=
  match c1errEnv with
  | some env => env.lookup "A"
  | none => none

/-- A concrete type map for the registration loop. -/
def sdict1 : List (String × String) :=
  [("Known", "KnownClass")]

/-- A concrete descriptor that matches the type map. -/
def descKnown : ChildDesc :=
  ⟨"Known", ["ns=2;i=101"]⟩

/-- A concrete descriptor advertised by the server with no counterpart in the
type map. -/
def descGhost : ChildDesc :=
  ⟨"Ghost", ["ns=2;i=102"]⟩

/-- A second concrete matching descriptor, processed after the mismatch. -/
def descKnown2 : ChildDesc :=
  ⟨"Known", ["ns=2;i=103"]⟩

/-- Helper: when the optional-field counter is positive, the emitted field
sequence is the synthetic Encoding field followed by the stored fields with
the switch-marker placeholders removed. -/
theorem emittedFields_of_pos (s : Struct) (h : 0 < s.option_counter) :
    emittedFields s = encodingField :: s.fields.filter (fun f => f.name != "SwitchField") := by
  have hn : newFields s = encodingField :: s.fields := by
    simp [newFields, h]
  rw [emittedFields, hn, List.filter_cons]
  simp only [encodingField]
  rw [if_pos (by decide : ("Encoding" != "SwitchField") = true)]

/-- Claim C2: for every `Struct` whose optional-field counter is greater
than zero, the emitted field list begins with exactly one synthetic
unsigned-32-bit field named `Encoding` (first, never optional), followed by
the declared fields in model order, and no emitted field is the raw
switch-marker placeholder. -/
theorem c2_encoding_first (s : Struct) (h : 0 < s.option_counter) :
    emittedFields s = encodingField :: s.fields.filter (fun f => f.name != "SwitchField")
      ∧ encodingField.name = "Encoding"
      ∧ encodingField.uatype = "UInt32"
      ∧ encodingField.is_optional = false
      ∧ (emittedFields s).all (fun f => f.name != "SwitchField") = true := by
  refine ⟨emittedFields_of_pos s h, rfl, rfl, rfl, ?_⟩
  rw [emittedFields, List.all_eq_true]
  intro f hf
  exact (List.mem_filter.mp hf).2

/-- Claim C2, witness: the theorem applied to a concrete struct with one
optional field. -/
theorem c2_encoding_first_witness :
    0 < optStruct.option_counter
      ∧ (emittedFields optStruct
          = encodingField :: optStruct.fields.filter (fun f => f.name != "SwitchField")
        ∧ encodingField.name = "Encoding"
        ∧ encodingField.uatype = "UInt32"
        ∧ encodingField.is_optional = false
        ∧ (emittedFields optStruct).all (fun f => f.name != "SwitchField") = true) :=
  ⟨by decide, c2_encoding_first optStruct (by decide)⟩

/-- Claim C3: the source intends to emit the native `String` type for an
array of `Char`, but the annotation it builds is `List[` followed by the
quoted forward reference, so the comparison against the unquoted literal
`List[ua.Char]` never fires and the emitted annotation stays a character
list.  This theorem evaluates the emitter at the failing input. -/
theorem c3_char_array_not_string :
    field_uatype charArrayField = "List[" ++ quote1 ++ "ua.Char" ++ quote1 ++ "]"
      ∧ (field_uatype charArrayField == "String") = false := by
  decide

/-- Claim C7: a declared member named `None` is stored under the
non-colliding name `None_`, and every stored member name is free of spaces. -/
theorem c7_name_sanitisation :
    (∀ (α : Type) (v : α), (EnumeratedValue.make "None" v).Name = "None_")
      ∧ ∀ (α : Type) (name : String) (v : α),
          ((EnumeratedValue.make name v).Name.data.all (fun c => c != ' ')) = true := by
  constructor
  · intro α v
    show enumValueName "None" = "None_"
    decide
  · intro α name v
    show (((if name = "None" then "None_" else name).data.filter
        (fun c => c != ' ')).all (fun c => c != ' ')) = true
    rw [List.all_eq_true]
    intro c hc
    exact (List.mem_filter.mp hc).2

/-- Claim C4: an array-length marker declaration is never materialised and
sets the array-mode flag for what follows; the next materialised field has
the array flag set with the empty-sequence default; and materialising a
field clears the array-mode flag for the remaining declarations. -/
theorem c4_array_marker :
    (∀ (cn : String → String) (g : String → List (String × String) → String)
        (enums : List (String × String)) (x : XmlElem) (rest : List XmlElem) (arr : Bool),
        strEndsWith x.tag "Field" = true →
        is_array_field (x.attrD "Name") = true →
        make_struct_fields cn g enums (x :: rest) arr = make_struct_fields cn g enums rest true)
      ∧ (∀ (cn : String → String) (g : String → List (String × String) → String)
          (enums : List (String × String)) (rest : List XmlElem) (f : Field)
          (fs : List Field) (n : Nat),
          make_struct_fields cn g enums rest true = (f :: fs, n) →
          f.array = true ∧ f.value = some "field(default_factory=list)")
      ∧ (∀ (cn : String → String) (g : String → List (String × String) → String)
          (enums : List (String × String)) (x : XmlElem) (rest : List XmlElem),
          strEndsWith x.tag "Field" = true →
          is_array_field (x.attrD "Name") = false →
          split_type_name (x.attrD "TypeName") ≠ "Bit" →
          make_struct_fields cn g enums (x :: rest) true
            = (mk_struct_field cn g enums x true :: (make_struct_fields cn g enums rest false).1,
               (if x.attrD "SwitchField" != "" then 1 else 0)
                 + (make_struct_fields cn g enums rest false).2)) := by
  refine ⟨?_, ?_, ?_⟩
  · intro cn g enums x rest arr h1 h2
    simp [make_struct_fields, h1, h2]
  · intro cn g enums rest
    induction rest with
    | nil =>
      intro f fs n h
      simp [make_struct_fields] at h
    | cons x rest ih =>
      intro f fs n h
      by_cases h1 : strEndsWith x.tag "Field" = true
      · by_cases h2 : is_array_field (x.attrD "Name") = true
        · rw [show make_struct_fields cn g enums (x :: rest) true
              = make_struct_fields cn g enums rest true by simp [make_struct_fields, h1, h2]] at h
          exact ih f fs n h
        · by_cases h3 : split_type_name (x.attrD "TypeName") = "Bit"
          · rw [show make_struct_fields cn g enums (x :: rest) true
                = make_struct_fields cn g enums rest true by
                  simp [make_struct_fields, h1, h2, h3]] at h
            exact ih f fs n h
          · simp only [make_struct_fields, h1, h2, h3, if_true, if_false,
              Bool.false_eq_true, if_neg] at h
            rw [Prod.mk.injEq] at h
            obtain ⟨hcons, -⟩ := h
            rw [List.cons.injEq] at hcons
            obtain ⟨hf, -⟩ := hcons
            rw [← hf]
            constructor <;> rfl
      · rw [show make_struct_fields cn g enums (x :: rest) true
            = make_struct_fields cn g enums rest true by simp [make_struct_fields, h1]] at h
        exact ih f fs n h
  · intro cn g enums x rest h1 h2 h3
    simp [make_struct_fields, h1, h2, h3]

/-- Claim C4, witness: the theorem applied to a concrete marker declaration
followed by a concrete payload declaration. -/
theorem c4_array_marker_witness :
    (strEndsWith markerElem.tag "Field" = true
        ∧ is_array_field (markerElem.attrD "Name") = true
        ∧ make_struct_fields id g0 [] [markerElem, pointsElem] false
            = make_struct_fields id g0 [] [pointsElem] true)
      ∧ (make_struct_fields id g0 [] [pointsElem] true
            = ([⟨"Points", "Double", some "field(default_factory=list)", true, false⟩], 0)
        ∧ (⟨"Points", "Double", some "field(default_factory=list)", true, false⟩ : Field).array = true
        ∧ (⟨"Points", "Double", some "field(default_factory=list)", true, false⟩ : Field).value
            = some "field(default_factory=list)") :=
  ⟨⟨rfl, rfl, c4_array_marker.1 id g0 [] markerElem [pointsElem] false rfl rfl⟩,
    ⟨rfl, (c4_array_marker.2.1 id g0 [] [pointsElem]
      ⟨"Points", "Double", some "field(default_factory=list)", true, false⟩ [] 0 rfl).1,
      (c4_array_marker.2.1 id g0 [] [pointsElem]
        ⟨"Points", "Double", some "field(default_factory=list)", true, false⟩ [] 0 rfl).2⟩⟩

/-- Helper: every materialised field consumes one declaration, and every
padding declaration of type `Bit` is consumed without materialising, so the
number of materialised fields plus the number of `Bit` declarations never
exceeds the number of declarations. -/
theorem make_struct_fields_length_le (cn : String → String)
    (g : String → List (String × String) → String) (enums : List (String × String)) :
    ∀ (raws : List XmlElem) (arr : Bool),
      ((make_struct_fields cn g enums raws arr).1).length
          + raws.countP (fun x => strEndsWith x.tag "Field"
              && (split_type_name (x.attrD "TypeName") == "Bit"))
        ≤ raws.length := by
  intro raws
  induction raws with
  | nil => intro arr; simp [make_struct_fields]
  | cons x rest ih =>
    intro arr
    by_cases h1 : strEndsWith x.tag "Field" = true
    · by_cases h3 : split_type_name (x.attrD "TypeName") = "Bit"
      · by_cases h2 : is_array_field (x.attrD "Name") = true
        · have hr := ih true
          simp only [make_struct_fields, h1, h2, h3, if_true, List.countP_cons,
            List.length_cons, beq_self_eq_true, Bool.and_true]
          simp [h1]
          omega
        · have hr := ih arr
          simp only [make_struct_fields, h1, h2, h3, if_true, List.countP_cons,
            List.length_cons, beq_self_eq_true, Bool.and_true]
          simp [h1, h2]
          omega
      · by_cases h2 : is_array_field (x.attrD "Name") = true
        · have hr := ih true
          simp only [make_struct_fields, h1, h2, if_true, List.countP_cons, List.length_cons]
          have hb : (split_type_name (x.attrD "TypeName") == "Bit") = false := by
            simp [h3]
          simp [hb]
          omega
        · have hr := ih false
          have hb : (split_type_name (x.attrD "TypeName") == "Bit") = false := by
            simp [h3]
          simp only [make_struct_fields, h1, h2, h3, List.countP_cons, List.length_cons]
          simp [hb, h1, h2, h3]
          omega
    · have hr := ih arr
      have hp : (strEndsWith x.tag "Field"
          && (split_type_name (x.attrD "TypeName") == "Bit")) = false := by
        simp [h1]
      simp only [make_struct_fields, h1, List.countP_cons, List.length_cons, if_neg]
      simp [hp, h1]
      omega

/-- Claim C5: a declaration whose resolved type is the padding marker `Bit`
is consumed without materialising any field (it only forwards the array-mode
flag when its name is also a marker), and a struct declaration list holding
at least one such padding declaration materialises strictly fewer fields
than it has declarations. -/
theorem c5_bit_padding :
    (∀ (cn : String → String) (g : String → List (String × String) → String)
        (enums : List (String × String)) (x : XmlElem) (rest : List XmlElem) (arr : Bool),
        strEndsWith x.tag "Field" = true →
        split_type_name (x.attrD "TypeName") = "Bit" →
        make_struct_fields cn g enums (x :: rest) arr
          = make_struct_fields cn g enums rest (is_array_field (x.attrD "Name") || arr))
      ∧ (∀ (cn : String → String) (g : String → List (String × String) → String)
          (enums : List (String × String)) (raws : List XmlElem) (arr : Bool),
          1 ≤ raws.countP (fun x => strEndsWith x.tag "Field"
              && (split_type_name (x.attrD "TypeName") == "Bit")) →
          ((make_struct_fields cn g enums raws arr).1).length < raws.length) := by
  constructor
  · intro cn g enums x rest arr h1 h3
    by_cases h2 : is_array_field (x.attrD "Name") = true
    · simp [make_struct_fields, h1, h2, h3]
    · simp only [Bool.not_eq_true] at h2
      simp [make_struct_fields, h1, h2, h3]
  · intro cn g enums raws arr hcount
    have h := make_struct_fields_length_le cn g enums raws arr
    omega

/-- Claim C5, witness: the theorem applied to a concrete padding declaration
followed by an ordinary declaration. -/
theorem c5_bit_padding_witness :
    (strEndsWith fillerElem.tag "Field" = true
        ∧ split_type_name (fillerElem.attrD "TypeName") = "Bit"
        ∧ make_struct_fields id g0 [] [fillerElem, valueElem] false
            = make_struct_fields id g0 [] [valueElem]
                (is_array_field (fillerElem.attrD "Name") || false))
      ∧ (1 ≤ ([fillerElem, valueElem].countP (fun x => strEndsWith x.tag "Field"
            && (split_type_name (x.attrD "TypeName") == "Bit")))
        ∧ ((make_struct_fields id g0 [] [fillerElem, valueElem] false).1).length
            < [fillerElem, valueElem].length) :=
  ⟨⟨rfl, rfl, c5_bit_padding.1 id g0 [] fillerElem [valueElem] false rfl rfl⟩,
    ⟨by decide, c5_bit_padding.2 id g0 [] [fillerElem, valueElem] false (by decide)⟩⟩

/-- Helper: the first pass of the model build only produces enumerated-type
entries. -/
theorem enum_pass_mem (cn : String → String) :
    ∀ (cs : List XmlElem) (enums : List (String × String)) (x : SchemaElem),
      x ∈ (enum_pass cn cs enums).1 → ∃ e, x = SchemaElem.enum e := by
  intro cs
  induction cs with
  | nil =>
    intro enums x hx
    simp [enum_pass] at hx
  | cons c rest ih =>
    intro enums x hx
    by_cases h : strEndsWith c.tag "EnumeratedType" = true
    · simp only [enum_pass, h, if_true] at hx
      rcases List.mem_cons.mp hx with h1 | h1
      · exact ⟨_, h1⟩
      · exact ih _ x h1
    · simp only [enum_pass, h, if_false, Bool.false_eq_true] at hx
      exact ih _ x hx

/-- Helper: the second pass of the model build only produces struct entries. -/
theorem struct_pass_mem (cn : String → String)
    (g : String → List (String × String) → String) (enums : List (String × String)) :
    ∀ (cs : List XmlElem) (x : SchemaElem),
      x ∈ struct_pass cn g enums cs → ∃ s, x = SchemaElem.struct s := by
  intro cs
  induction cs with
  | nil =>
    intro x hx
    simp [struct_pass] at hx
  | cons c rest ih =>
    intro x hx
    by_cases h : strEndsWith c.tag "StructuredType" = true
    · simp only [struct_pass, h, if_true] at hx
      rcases List.mem_cons.mp hx with h1 | h1
      · exact ⟨_, h1⟩
      · exact ih x h1
    · simp only [struct_pass, h, if_false, Bool.false_eq_true] at hx
      exact ih x hx

/-- Claim C6: in the type model built from one schema document, every
enumerated-type entry sits at a strictly lower index than every struct
entry: the two-pass build models all enums before any struct. -/
theorem c6_enums_before_structs (cn : String → String)
    (g : String → List (String × String) → String) (root : XmlElem)
    (i j : Nat) (e : EnumType String) (s : Struct)
    (hi : (make_model cn g root).get? i = some (SchemaElem.enum e))
    (hj : (make_model cn g root).get? j = some (SchemaElem.struct s)) :
    i < j := by
  have hm : make_model cn g root
      = (enum_pass cn root.children []).1
        ++ struct_pass cn g (enum_pass cn root.children []).2 root.children := rfl
  rw [hm] at hi hj
  have hi' : i < (enum_pass cn root.children []).1.length := by
    by_contra hlt
    push_neg at hlt
    rw [List.get?_append_right hlt] at hi
    obtain ⟨s', hs'⟩ := struct_pass_mem cn g _ root.children _ (List.get?_mem hi)
    simp at hs'
  have hj' : (enum_pass cn root.children []).1.length ≤ j := by
    by_contra hlt
    push_neg at hlt
    rw [List.get?_append hlt] at hj
    obtain ⟨e', he'⟩ := enum_pass_mem cn root.children [] _ (List.get?_mem hj)
    simp at he'
  omega

/-- Claim C6, witness: the theorem applied to a concrete schema with one
enumerated type and one structured type. -/
theorem c6_enums_before_structs_witness :
    (make_model id g0 demoRoot).get? 0
        = some (SchemaElem.enum ⟨"Color", [⟨"Red", "0"⟩], none⟩)
      ∧ (make_model id g0 demoRoot).get? 1
          = some (SchemaElem.struct ⟨"Shape", [⟨"ColorField", "Color", some "0", false, false⟩], none, 0⟩)
      ∧ (0 : Nat) < 1 :=
  ⟨rfl, rfl,
    c6_enums_before_structs id g0 demoRoot 0 1 ⟨"Color", [⟨"Red", "0"⟩], none⟩
      ⟨"Shape", [⟨"ColorField", "Color", some "0", false, false⟩], none, 0⟩ rfl rfl⟩

/-- Claim C8: a descriptor whose cleaned browse name has no entry in the
freshly built type map contributes nothing to the performed registrations,
and the remaining descriptors are processed exactly as if it were absent. -/
theorem c8_mismatch_skipped (cn : String → String) (sdict : List (String × String))
    (pre : List ChildDesc) (d : ChildDesc) (post : List ChildDesc)
    (h : sdict.lookup (cn d.browseName) = none) :
    register_descriptors cn sdict (pre ++ d :: post)
      = register_descriptors cn sdict (pre ++ post) := by
  induction pre with
  | nil =>
    simp only [List.nil_append]
    cases hr : d.refs with
    | nil => simp [register_descriptors, hr]
    | cons nodeid t => simp [register_descriptors, hr, h]
  | cons x pre ih =>
    simp only [List.cons_append]
    cases hx : x.refs with
    | nil => simp [register_descriptors, hx, ih]
    | cons nodeid t =>
      cases hl : sdict.lookup (cn x.browseName) with
      | none => simp [register_descriptors, hx, hl, ih]
      | some cls => simp [register_descriptors, hx, hl, ih]

/-- Claim C8, witness: the theorem applied to a concrete fetch where a
mismatching descriptor sits between two matching ones. -/
theorem c8_mismatch_skipped_witness :
    sdict1.lookup (id descGhost.browseName) = none
      ∧ register_descriptors id sdict1 ([descKnown] ++ descGhost :: [descKnown2])
          = register_descriptors id sdict1 ([descKnown] ++ [descKnown2]) :=
  ⟨rfl, c8_mismatch_skipped id sdict1 [descKnown] descGhost [descKnown2] rfl⟩

/-- Helper: indexing into a Python-style enumeration pairs each element with
its offset ordinal. -/
theorem pyEnumerate_get? {α : Type} :
    ∀ (l : List α) (n i : Nat),
      (pyEnumerate n l)[i]? = (l[i]?).map (fun a => (n + i, a)) := by
  intro l
  induction l with
  | nil => intro n i; simp [pyEnumerate]
  | cons x xs ih =>
    intro n i
    cases i with
    | zero => simp [pyEnumerate]
    | succ k =>
      simp only [pyEnumerate, List.getElem?_cons_succ, ih (n + 1) k]
      rw [show n + 1 + k = n + (k + 1) by omega]

/-- Helper: enumeration preserves length. -/
theorem pyEnumerate_length {α : Type} :
    ∀ (n : Nat) (l : List α), (pyEnumerate n l).length = l.length := by
  intro n l
  induction l generalizing n with
  | nil => simp [pyEnumerate]
  | cons x xs ih => simp [pyEnumerate, ih]

/-- Claim C9: introspecting an enumeration from a plain ordered string list
produces one member per string in list order, and each member carries its
ordinal index as its integer value. -/
theorem c9_enum_strings_ordinal (cn : String → String) (name : String) (val : List String) :
    (get_enum_strings cn name val).fields.length = val.length
      ∧ ∀ (i : Nat) (st : String), val[i]? = some st →
          (get_enum_strings cn name val).fields[i]? = some (EnumeratedValue.make st i) := by
  constructor
  · simp [get_enum_strings, pyEnumerate_length]
  · intro i st h
    simp [get_enum_strings, List.getElem?_map, pyEnumerate_get?, h]

/-- Claim C9, witness: the theorem applied to a concrete two-element string
list. -/
theorem c9_enum_strings_ordinal_witness :
    ["Off", "On"][1]? = some "On"
      ∧ (get_enum_strings id "Mode" ["Off", "On"]).fields[1]?
          = some (EnumeratedValue.make "On" 1) :=
  ⟨rfl, (c9_enum_strings_ordinal id "Mode" ["Off", "On"]).2 1 "On" rfl⟩

/-- Claim C10: emitting a struct with optional fields is not idempotent.
The emission call stores the prepended Encoding field back into the struct,
so a second emission of the struct returned by the first call emits two
fields named `Encoding` and produces a different definition than the first
call did. -/
theorem c10_get_code_not_idempotent (s : Struct) (h : 0 < s.option_counter)
    (hn : s.fields.countP (fun f => f.name == "Encoding") = 0) :
    (emittedFields (Struct.get_code s).2).countP (fun f => f.name == "Encoding") = 2
      ∧ (Struct.get_code (Struct.get_code s).2).1 ≠ (Struct.get_code s).1 := by
  have hf1 : (Struct.get_code s).2.fields = encodingField :: s.fields := by
    simp [Struct.get_code, newFields, h]
  have h1 : 0 < (Struct.get_code s).2.option_counter := h
  have he2 : emittedFields (Struct.get_code s).2
      = encodingField :: encodingField
          :: s.fields.filter (fun f => f.name != "SwitchField") := by
    rw [emittedFields_of_pos _ h1, hf1, List.filter_cons]
    simp only [encodingField]
    rw [if_pos (by decide : ("Encoding" != "SwitchField") = true)]
  have hz : (s.fields.filter (fun f => f.name != "SwitchField")).countP
      (fun f => f.name == "Encoding") = 0 := by
    rw [List.countP_eq_zero] at hn ⊢
    intro f hf
    exact hn f (List.mem_filter.mp hf).1
  constructor
  · rw [he2, List.countP_cons, List.countP_cons, hz]
    decide
  · intro heq
    have hlen := congrArg List.length heq
    rw [show (Struct.get_code (Struct.get_code s).2).1
        = (emittedFields (Struct.get_code s).2).map field_line from rfl,
      show (Struct.get_code s).1 = (emittedFields s).map field_line from rfl,
      he2, emittedFields_of_pos s h] at hlen
    simp only [List.length_map, List.length_cons] at hlen
    omega

/-- Claim C10, witness: the theorem applied to a concrete struct with two
optional fields and no declared field named `Encoding`. -/
theorem c10_get_code_not_idempotent_witness :
    0 < twoOptStruct.option_counter
      ∧ twoOptStruct.fields.countP (fun f => f.name == "Encoding") = 0
      ∧ ((emittedFields (Struct.get_code twoOptStruct).2).countP
            (fun f => f.name == "Encoding") = 2
        ∧ (Struct.get_code (Struct.get_code twoOptStruct).2).1
            ≠ (Struct.get_code twoOptStruct).1) :=
  ⟨by decide, by decide, c10_get_code_not_idempotent twoOptStruct (by decide) (by decide)⟩

/-- Helper: a generation loop that succeeds on a prefix continues from the
environment that prefix produced. -/
theorem exec_loop_append (cn : String → String) (execC : List String → Env → Option Env) :
    ∀ (pre rest : List SchemaElem) (env env1 : Env),
      exec_loop cn execC pre env = .ok env1 →
      exec_loop cn execC (pre ++ rest) env = exec_loop cn execC rest env1 := by
  intro pre
  induction pre with
  | nil =>
    intro rest env env1 h
    simp only [exec_loop] at h
    cases h
    simp
  | cons e pre ih =>
    intro rest env env1 h
    cases hx : execC (SchemaElem.get_code cn e) env with
    | none => simp [exec_loop, hx] at h
    | some env2 =>
      simp only [List.cons_append, exec_loop, hx] at h ⊢
      exact ih rest env2 env1 h

/-- Claim C1, amended: when materialising a type model fails on one entry,
the error is propagated together with the offending code, the failing entry
and every later entry are not committed, but every entry generated before
the failing one remains committed in the target environment: the error
carries exactly the environment produced by the successful prefix. -/
theorem c1_partial_commit (cn : String → String) (execC : List String → Env → Option Env)
    (pre : List SchemaElem) (bad : SchemaElem) (post : List SchemaElem)
    (env env1 : Env)
    (hpre : exec_loop cn execC pre (add_required_libs env) = .ok env1)
    (hbad : execC (SchemaElem.get_code cn bad) env1 = none) :
    generate_python_class cn execC (pre ++ bad :: post) env
      = .error (SchemaElem.get_code cn bad, env1) := by
  rw [generate_python_class, exec_loop_append cn execC pre (bad :: post) _ env1 hpre]
  simp [exec_loop, hbad]

/-- Claim C1, counterexample to the claim as stated: loading the two-entry
model `[elemA, elemB]` with an execution oracle under which `elemB` raises
fails, yet the environment observed after the failure maps the model name
`A` to the freshly generated type produced for `elemA`.  The load is
therefore not atomic: a partial type map is committed for a document that
failed generation. -/
theorem c1_not_atomic_counterexample :
    c1errLookupA = some (PyVal.generated (SchemaElem.get_code id elemA))
      ∧ (generate_python_class id execFail1 [elemA, elemB] []).toOption = none := by
  constructor <;> rfl

/-- Claim C1, witness: the amended theorem applied to the concrete failing
load. -/
theorem c1_partial_commit_witness :
    exec_loop id execFail1 [elemA] (add_required_libs []) = .ok c1env1
      ∧ execFail1 (SchemaElem.get_code id elemB) c1env1 = none
      ∧ generate_python_class id execFail1 ([elemA] ++ elemB :: []) []
          = .error (SchemaElem.get_code id elemB, c1env1) :=
  ⟨rfl, rfl, c1_partial_commit id execFail1 [elemA] elemB [] [] c1env1 rfl rfl⟩

end UaStructs
